import Mathlib

set_option linter.unusedVariables false
set_option synthInstance.maxSize 2048
set_option maxHeartbeats 1000000

/-!
Shallow embedding of the vquant factor-data access layer: the orchestrator
(vquant/core.py), the factor hierarchy (vquant/factors.py), signals
(vquant/signals.py), the path adapter (vquant/storage.py) and the
local incremental-merge storage operation exercised by
src/tests/storage_test.py. Python strings are lists of characters, dates
are naturals, numeric cell values are integers, missing cells (NaN) are
`none`, and raised exceptions are the error side of `Except`.
-/

/-- Python strings, modelled as lists of characters. -/
abbrev Str := List Char

/-- Helper turning a Lean string literal into the model string type. -/
def S (s : String) : Str := s.toList

/-- Modelled from the spec: the exception classes `FactorNotFoundError` and
`DataLoadError` are defined in vquant/exceptions.py, which is not under
src/ (it is only imported there). Spec section 7 describes them as two
distinguishable error kinds, each carrying a message that identifies the
failing ticker and factor. `valueError` and `indexError` stand for the
builtin ValueError and IndexError that the code under src/ can raise. -/
inductive VError
  | factorNotFoundError (msg : Str)
  | dataLoadError (msg : Str)
  | valueError (msg : Str)
  | indexError
  deriving DecidableEq

/-- Stand-in for the host text of a FileNotFoundError; the exact wording of
exceptions raised below pandas is abstracted, their routing is not. -/
def fnfMsg (path : Str) : Str := S "No such file: " ++ path

/-- Stand-in for the host text of a parquet deserialization failure. -/
def parseErrMsg : Str := S "parquet deserialization failed"

/-- Stand-in for the host text of a KeyError on a missing column. -/
def keyErrMsg : Str := S "KeyError"

/-- Python str(e) for the modelled exceptions: the carried message. -/
def strOf : VError → Str
  | .factorNotFoundError m => m
  | .dataLoadError m => m
  | .valueError m => m
  | .indexError => S "list index out of range"

/-- Message template of core.py lines 30 and 89:
f"Failed to load OHLCV for {ticker}: {str(e)}". -/
def ohlcvFailMsg (ticker inner : Str) : Str :=
  S "Failed to load OHLCV for " ++ ticker ++ S ": " ++ inner

/-- Message template of factors.py line 34:
f"Factor {self.full_name} not found for {ticker} at {path}". -/
def notFoundMsg (full ticker path : Str) : Str :=
  S "Factor " ++ full ++ S " not found for " ++ ticker ++ S " at " ++ path

/-- Message template of factors.py line 36:
f"Failed to load {self.full_name} for {ticker}: {str(e)}". -/
def loadFailMsg (full ticker inner : Str) : Str :=
  S "Failed to load " ++ full ++ S " for " ++ ticker ++ S ": " ++ inner

/-- Message template of core.py line 104:
f"Failed to compute factor {factor.full_name} for {ticker}: {str(e)}". -/
def computeFailMsg (full ticker inner : Str) : Str :=
  S "Failed to compute factor " ++ full ++ S " for " ++ ticker ++ S ": " ++ inner

/-- Index key of a pandas Series: either a positional integer (a column taken
from a frame that was read without set_index, as in StoredFactor.fetch) or a
date. A positional key never equals a date key, matching integer positions
never comparing equal to datetime values. -/
inductive SKey
  | pos (n : Nat)
  | date (d : Nat)
  deriving DecidableEq

/-- A pandas Series: index keys paired with values. -/
abbrev PySeries := List (SKey × Int)

/-- One parquet record set: rows in file order, each carrying its date cell
and the remaining named cells. -/
abbrev Frame := List (Nat × List (Str × Int))

/-- State of the resource behind one path: absent, unreadable, or a frame. -/
inductive Resource
  | missing
  | corrupt
  | ok (f : Frame)
  deriving DecidableEq

/-- The storage medium: what each addressed path holds. -/
structure Env where
  fs : Str → Resource

/-- Vquant.__init__ state (core.py lines 11..16); the storage adapter is the
DefaultStorageAdapter, whose get_path template is inlined below. -/
structure Vquant where
  market : Str
  base_url : Str
  timeframe : Str

/-- A returned wide table: row index, column labels (factor-or-field, ticker),
and the data columns positionally matching the labels. -/
structure WideTable where
  index : List Nat
  columns : List (Str × Str)
  data : List (List (Option Int))
  deriving DecidableEq

/-- First-match association lookup (pandas label lookup). -/
def lookupA {α β : Type} [DecidableEq α] : List (α × β) → α → Option β
  | [], _ => none
  | p :: ps, k => if p.1 = k then some p.2 else lookupA ps k

/-- DefaultStorageAdapter.get_path (storage.py line 19); the category
argument does not appear in the template. -/
def getPath (base_url market instrument timeframe category name : Str) : Str :=
  base_url ++ S "/data/dim/" ++ market ++ S "/instrument/" ++ instrument ++
    S "/" ++ timeframe ++ S "/" ++ name ++ S ".parquet"

/-- sorted(pd.concat(...).unique()): the distinct dates, ascending. -/
def sortedUnion (ds : List Nat) : List Nat := ds.dedup.insertionSort (· ≤ ·)

/-- f.split(".", 1) restricted to the case where a dot occurs:
some (part before the first dot, part after it). -/
def splitDot1 : Str → Option (Str × Str)
  | [] => none
  | c :: cs =>
    if c = '.' then some ([], cs)
    else (splitDot1 cs).map (fun p => (c :: p.1, p.2))

/-- core.py line 66: category, name = f.split(".", 1) if "." in f
else ("technical", f). Returns (category, name). -/
def resolveStr (s : Str) : Str × Str :=
  match splitDot1 s with
  | some p => p
  | none => (S "technical", s)

/-- factors.py: the Factor hierarchy. A stored factor carries (name, category);
a computed factor additionally carries the user transform and the dependency
full-names, which are strings (factors.py line 45). -/
inductive Factor
  | stored (name category : Str)
  | computed (name category : Str) (fn : WideTable → PySeries) (dependencies : List Str)

def Factor.name : Factor → Str
  | .stored n _ => n
  | .computed n _ _ _ => n

def Factor.category : Factor → Str
  | .stored _ c => c
  | .computed _ c _ _ => c

/-- factors.py line 21: f"{self.category}.{self.name}". -/
def Factor.full_name (f : Factor) : Str := f.category ++ '.' :: f.name

def Factor.dependencies : Factor → List Str
  | .stored _ _ => []
  | .computed _ _ _ d => d

/-- ComputedFactor.__init__ (factors.py line 45): dependencies or
["ohlcv.close"]; a falsy argument (None, and also an empty list) is replaced
by the default. -/
def mkComputedFactor (name category : Str) (fn : WideTable → PySeries)
    (dependencies : Option (List Str)) : Factor :=
  .computed name category fn
    (match dependencies with
     | none => [S "ohlcv.close"]
     | some ds => if ds = [] then [S "ohlcv.close"] else ds)

/-- A heterogeneous factor specification: a string or a Factor instance
(core.py line 54). -/
inductive FactorSpec
  | str (s : Str)
  | factor (f : Factor)

/-- core.py lines 64..69: a string resolves to StoredFactor(name, category);
a Factor instance passes through. -/
def resolveSpec : FactorSpec → Factor
  | .str s => .stored (resolveStr s).2 (resolveStr s).1
  | .factor f => f

/-- df["value"] of a frame read without set_index (factors.py line 32): the
value column keyed positionally. -/
def valueSeries (f : Frame) : PySeries :=
  f.enum.filterMap (fun p => (lookupA p.2.2 (S "value")).map (fun v => (SKey.pos p.1, v)))

/-- The frame has the named column in every row (the column exists in the
schema of the file). -/
def hasCol (f : Frame) (c : Str) : Bool := f.all (fun r => (lookupA r.2 c).isSome)

/-- StoredFactor.fetch (factors.py lines 26..36): FileNotFoundError becomes
FactorNotFoundError, any other failure (unreadable file, missing value
column) becomes DataLoadError. -/
def fetchStored (env : Env) (v : Vquant) (name category ticker : Str) :
    Except VError PySeries :=
  match env.fs (getPath v.base_url v.market ticker v.timeframe category name) with
  | .missing => .error (.factorNotFoundError (notFoundMsg (category ++ '.' :: name) ticker
      (getPath v.base_url v.market ticker v.timeframe category name)))
  | .corrupt => .error (.dataLoadError (loadFailMsg (category ++ '.' :: name) ticker parseErrMsg))
  | .ok f =>
    if hasCol f (S "value") then .ok (valueSeries f)
    else .error (.dataLoadError (loadFailMsg (category ++ '.' :: name) ticker keyErrMsg))

/-- series.reindex(all_dates): one optional value per requested date, absent
index keys giving NaN. -/
def reindexS (s : PySeries) (dates : List Nat) : List (Option Int) :=
  dates.map (fun d => lookupA s (SKey.date d))

/-- Cell of a date-indexed frame at (date, column). -/
def frameCell (f : Frame) (d : Nat) (c : Str) : Option Int :=
  (lookupA f d).bind (fun row => lookupA row c)

/-- pd.read_parquet(path)[["date"] + cols].set_index("date") for one ticker,
with the exception mapping of core.py lines 26..30: every failure becomes a
DataLoadError naming the ticker. -/
def loadOhlcvSel (env : Env) (v : Vquant) (ticker : Str) (cols : List Str) :
    Except VError Frame :=
  match env.fs (getPath v.base_url v.market ticker v.timeframe (S "ohlcv") (S "ohlcv")) with
  | .missing => .error (.dataLoadError (ohlcvFailMsg ticker
      (fnfMsg (getPath v.base_url v.market ticker v.timeframe (S "ohlcv") (S "ohlcv")))))
  | .corrupt => .error (.dataLoadError (ohlcvFailMsg ticker parseErrMsg))
  | .ok f =>
    if cols.all (fun c => hasCol f c) then .ok f
    else .error (.dataLoadError (ohlcvFailMsg ticker keyErrMsg))

/-- The first loop of get_ohlcv (core.py lines 21..30): load every ticker in
order, the first failure aborting the whole call. -/
def loadAllOhlcv (env : Env) (v : Vquant) (cols : List Str) :
    List Str → Except VError (List (Str × Frame))
  | [] => .ok []
  | t :: ts =>
    match loadOhlcvSel env v t cols with
    | .error e => .error e
    | .ok f =>
      match loadAllOhlcv env v cols ts with
      | .error e => .error e
      | .ok rest => .ok ((t, f) :: rest)

/-- result[ticker]: dictionary lookup. A requested ticker is always bound;
duplicate tickers re-read the same path, so the first binding equals the
dictionary value. -/
def dictGet (d : List (Str × Frame)) (t : Str) : Frame := (lookupA d t).getD []

/-- aligned_data[key] = vals on a frame with flat tuple-named columns:
replace an existing column in place, otherwise append a new one. -/
def assignCol (acc : List ((Str × Str) × List (Option Int))) (key : Str × Str)
    (vals : List (Option Int)) : List ((Str × Str) × List (Option Int)) :=
  if acc.any (fun p => decide (p.1 = key)) then
    acc.map (fun p => if p.1 = key then (key, vals) else p)
  else acc ++ [(key, vals)]

/-- Inner assignment loop of core.py lines 46..47: one ticker, cols in order. -/
def assignLoopC (frames : List (Str × Frame)) (dates : List Nat) (t : Str) :
    List Str → List ((Str × Str) × List (Option Int)) → List ((Str × Str) × List (Option Int))
  | [], acc => acc
  | c :: cs, acc =>
    assignLoopC frames dates t cs
      (assignCol acc (c, t) (dates.map (fun d => frameCell (dictGet frames t) d c)))

/-- Outer assignment loop of core.py lines 44..47: tickers outer, cols inner. -/
def assignLoop (frames : List (Str × Frame)) (dates : List Nat) (cols : List Str) :
    List Str → List ((Str × Str) × List (Option Int)) → List ((Str × Str) × List (Option Int))
  | [], acc => acc
  | t :: ts, acc => assignLoop frames dates cols ts (assignLoopC frames dates t cols acc)

/-- Vquant.get_ohlcv (core.py lines 18..52). The MultiIndex labels built by
from_product (cols outer, tickers inner) are attached positionally to the
columns created by the ticker-outer assignment loop, exactly as
aligned_data.columns = multi_columns relabels positionally; a length mismatch
raises ValueError, and an empty ticker list makes pd.concat raise. -/
def get_ohlcv (env : Env) (v : Vquant) (tickers cols : List Str) :
    Except VError WideTable :=
  match loadAllOhlcv env v cols tickers with
  | .error e => .error e
  | .ok frames =>
    if frames = [] then .error (.valueError (S "No objects to concatenate"))
    else
      let all_dates := sortedUnion (frames.flatMap (fun p => p.2.map Prod.fst))
      let multi_columns := cols.flatMap (fun c => tickers.map (fun t => (c, t)))
      let assigned := assignLoop frames all_dates cols tickers []
      if assigned.length = multi_columns.length then
        .ok { index := all_dates, columns := multi_columns,
              data := assigned.map (fun p => p.2) }
      else .error (.valueError (S "Length mismatch"))

/-- Cell of a wide table at (column label, date): first matching label, then
the positionally matching data column. -/
def WideTable.cellAt (w : WideTable) (key : Str × Str) (d : Nat) : Option Int :=
  match w.columns.findIdx? (fun k => decide (k = key)) with
  | none => none
  | some i =>
    match w.index.findIdx? (fun x => decide (x = d)) with
    | none => none
    | some j => (((w.data.get? i).getD []).get? j).getD none

/-- pd.read_parquet(path).set_index("date") for the base OHLCV of one ticker
in get_factors (core.py lines 83..89): no column selection, every failure a
DataLoadError naming the ticker. -/
def loadBase1 (env : Env) (v : Vquant) (ticker : Str) : Except VError Frame :=
  match env.fs (getPath v.base_url v.market ticker v.timeframe (S "ohlcv") (S "ohlcv")) with
  | .missing => .error (.dataLoadError (ohlcvFailMsg ticker
      (fnfMsg (getPath v.base_url v.market ticker v.timeframe (S "ohlcv") (S "ohlcv")))))
  | .corrupt => .error (.dataLoadError (ohlcvFailMsg ticker parseErrMsg))
  | .ok f => .ok f

/-- The base-loading loop of get_factors (core.py lines 81..89): all tickers
in order, fail-fast, and this runs before any factor fetch. -/
def loadBase (env : Env) (v : Vquant) : List Str → Except VError (List (Str × Frame))
  | [] => .ok []
  | t :: ts =>
    match loadBase1 env v t with
    | .error e => .error e
    | .ok f =>
      match loadBase env v ts with
      | .error e => .error e
      | .ok rest => .ok ((t, f) :: rest)

/-- result_df[(full, ticker)] = series on a frame whose columns were created
as a MultiIndex up front: every column whose label matches is overwritten
(pandas assigns to all duplicate-labelled columns), positions unchanged. -/
def setCols (columns : List (Str × Str)) (data : List (List (Option Int)))
    (key : Str × Str) (vals : List (Option Int)) : List (List (Option Int)) :=
  (columns.zip data).map (fun p => if p.1 = key then vals else p.2)

/-- Factor loop of get_factors for one ticker, specialized at stored factors
given as (category, name) pairs: fetch, wrap any failure as
FactorNotFoundError (core.py lines 99..104), else reindex and assign. -/
def fetchLoopS (env : Env) (v : Vquant) (columns : List (Str × Str)) (dates : List Nat)
    (t : Str) : List (Str × Str) → List (List (Option Int)) →
    Except VError (List (List (Option Int)))
  | [], data => .ok data
  | cn :: rest, data =>
    match fetchStored env v cn.2 cn.1 t with
    | .error e => .error (.factorNotFoundError (computeFailMsg (cn.1 ++ '.' :: cn.2) t (strOf e)))
    | .ok s =>
      fetchLoopS env v columns dates t rest
        (setCols columns data (cn.1 ++ '.' :: cn.2, t) (reindexS s dates))

/-- Ticker loop of get_factors (core.py line 97), stored-factor version. -/
def tickerLoopS (env : Env) (v : Vquant) (columns : List (Str × Str)) (dates : List Nat)
    (resolved : List (Str × Str)) : List Str → List (List (Option Int)) →
    Except VError (List (List (Option Int)))
  | [], data => .ok data
  | t :: ts, data =>
    match fetchLoopS env v columns dates t resolved data with
    | .error e => .error e
    | .ok d2 => tickerLoopS env v columns dates resolved ts d2

/-- Vquant.get_factors specialized at an all-string factor list. This is how
ComputedFactor.fetch invokes it (factors.py line 49 passes the dependency
strings, and core.py line 66 resolves every string to a StoredFactor), so
nothing here recurses. The lemma getFactorsFromStored_eq below certifies
that this coincides with get_factors on the corresponding FactorSpec list. -/
def getFactorsFromStored (env : Env) (v : Vquant) (tickers specs : List Str) :
    Except VError WideTable :=
  let resolved := specs.map resolveStr
  let names := resolved.map (fun cn => cn.1 ++ '.' :: cn.2)
  let multi_columns := names.flatMap (fun f => tickers.map (fun t => (f, t)))
  match loadBase env v tickers with
  | .error e => .error e
  | .ok base =>
    if base = [] then .error (.valueError (S "No objects to concatenate"))
    else
      let all_dates := sortedUnion (base.flatMap (fun p => p.2.map Prod.fst))
      let init := multi_columns.map (fun _ => all_dates.map (fun _ => (none : Option Int)))
      match tickerLoopS env v multi_columns all_dates resolved tickers init with
      | .error e => .error e
      | .ok data => .ok { index := all_dates, columns := multi_columns, data := data }

/-- Factor.fetch dispatch (factors.py lines 26 and 47..50): a stored factor
reads through storage, a computed factor fetches all its dependency factors
for the same single ticker into one table and applies the transform to it. -/
def Factor.fetch (env : Env) (v : Vquant) (f : Factor) (ticker : Str) :
    Except VError PySeries :=
  match f with
  | .stored n c => fetchStored env v n c ticker
  | .computed _ _ fn deps =>
    match getFactorsFromStored env v [ticker] deps with
    | .error e => .error e
    | .ok w => .ok (fn w)

/-- Factor loop of get_factors for one ticker (core.py lines 99..104). -/
def fetchLoopF (env : Env) (v : Vquant) (columns : List (Str × Str)) (dates : List Nat)
    (t : Str) : List Factor → List (List (Option Int)) →
    Except VError (List (List (Option Int)))
  | [], data => .ok data
  | f :: rest, data =>
    match Factor.fetch env v f t with
    | .error e => .error (.factorNotFoundError (computeFailMsg f.full_name t (strOf e)))
    | .ok s =>
      fetchLoopF env v columns dates t rest
        (setCols columns data (f.full_name, t) (reindexS s dates))

/-- Ticker loop of get_factors (core.py line 97). -/
def tickerLoopF (env : Env) (v : Vquant) (columns : List (Str × Str)) (dates : List Nat)
    (resolved : List Factor) : List Str → List (List (Option Int)) →
    Except VError (List (List (Option Int)))
  | [], data => .ok data
  | t :: ts, data =>
    match fetchLoopF env v columns dates t resolved data with
    | .error e => .error e
    | .ok d2 => tickerLoopF env v columns dates resolved ts d2

/-- Vquant.get_factors (core.py lines 54..107): resolve the specifications,
build the MultiIndex columns (factor full-names outer, tickers inner), load
the base OHLCV of every ticker, take the sorted union of the base date
indices, then fetch every (ticker, factor) pair, reindex it onto the union
and assign it at its label. -/
def get_factors (env : Env) (v : Vquant) (tickers : List Str) (specs : List FactorSpec) :
    Except VError WideTable :=
  let resolved := specs.map resolveSpec
  let names := resolved.map Factor.full_name
  let multi_columns := names.flatMap (fun f => tickers.map (fun t => (f, t)))
  match loadBase env v tickers with
  | .error e => .error e
  | .ok base =>
    if base = [] then .error (.valueError (S "No objects to concatenate"))
    else
      let all_dates := sortedUnion (base.flatMap (fun p => p.2.map Prod.fst))
      let init := multi_columns.map (fun _ => all_dates.map (fun _ => (none : Option Int)))
      match tickerLoopF env v multi_columns all_dates resolved tickers init with
      | .error e => .error e
      | .ok data => .ok { index := all_dates, columns := multi_columns, data := data }

/-- A signal: name, resolved factor list and condition (signals.py). -/
structure Signal where
  name : Str
  factors : List Factor
  condition : WideTable → PySeries

/-- Factor resolution of Signal.__init__ (signals.py lines 13..16):
StoredFactor(f.split(".", 1)[1], f.split(".", 1)[0]) for strings; on a
string without a dot the index [1] raises IndexError. Elements are resolved
left to right, the first failure raising. -/
def signalResolve : List FactorSpec → Except VError (List Factor)
  | [] => .ok []
  | .str s :: rest =>
    (match splitDot1 s with
     | none => .error .indexError
     | some cn =>
       match signalResolve rest with
       | .error e => .error e
       | .ok fs => .ok (.stored cn.2 cn.1 :: fs))
  | .factor f :: rest =>
    match signalResolve rest with
    | .error e => .error e
    | .ok fs => .ok (f :: fs)

/-- Signal.__init__ (signals.py lines 10..17). -/
def mkSignal (name : Str) (factors : List FactorSpec) (condition : WideTable → PySeries) :
    Except VError Signal :=
  match signalResolve factors with
  | .error e => .error e
  | .ok fs => .ok { name := name, factors := fs, condition := condition }

/-- A stored record set for one value column: (date, value) rows. -/
abbrev Records := List (Nat × Int)

/-- Modelled from the spec: the upsert step of DuckDBFactorStorage.save_factor.
The DuckDBFactorStorage class belongs to the local-storage implementation of
vquant/storage.py, which is not under src/ (only src/tests/storage_test.py
exercises it). Spec section 4.2: the existing content is upserted with
newData on the date key — rows with matching dates take the value from
newData, dates present only in the existing file are kept, dates present
only in newData are appended — and the merged result is deduplicated and
sorted ascending by date. -/
def upsertRecords (old newData : Records) : Records :=
  (sortedUnion (old.map Prod.fst ++ newData.map Prod.fst)).filterMap
    (fun d =>
      match lookupA newData d with
      | some v => some (d, v)
      | none => (lookupA old d).map (fun v => (d, v)))

/-- Modelled from the spec: DuckDBFactorStorage.save_factor (not under src/,
see upsertRecords). If the target resource does not exist, newData is
written as the initial content; otherwise the existing content is loaded,
upserted with newData, and the whole file is rewritten with the result. -/
def save_factor (existing : Option Records) (newData : Records) : Records :=
  match existing with
  | none => newData
  | some old => upsertRecords old newData

/-- Is the error the FactorNotFound kind. -/
def VError.isFactorNotFound : VError → Bool
  | .factorNotFoundError _ => true
  | _ => false

/-- Is the error the DataLoad kind. -/
def VError.isDataLoad : VError → Bool
  | .dataLoadError _ => true
  | _ => false

/-- Does a call end in an error satisfying the predicate. -/
def errIs (p : VError → Bool) : Except VError WideTable → Bool
  | .error e => p e
  | .ok _ => false

/-- Concrete orchestrator used by the evaluation theorems below. -/
def V0 : Vquant := ⟨S "stocks", S "base", S "1d"⟩

def tA : Str := S "AA"

def tB : Str := S "BB"

/-- The OHLCV path of a ticker under V0. -/
def pathOhlcv (t : Str) : Str := getPath (S "base") (S "stocks") t (S "1d") (S "ohlcv") (S "ohlcv")

def frameA : Frame := [(1, [(S "open", 1), (S "close", 10)]), (2, [(S "open", 2), (S "close", 20)])]

def frameB : Frame := [(2, [(S "open", 3), (S "close", 30)]), (3, [(S "open", 4), (S "close", 40)])]

/-- Two tickers, OHLCV present for both, dates {1,2} and {2,3}. -/
def env1 : Env :=
  ⟨fun p => if p = pathOhlcv tA then .ok frameA else if p = pathOhlcv tB then .ok frameB else .missing⟩

/-- Path of the stored factor technical.x for ticker AA under V0. -/
def pathX : Str := getPath (S "base") (S "stocks") tA (S "1d") (S "technical") (S "x")

/-- OHLCV fine for AA, the technical.x resource present but unreadable. -/
def env2 : Env :=
  ⟨fun p => if p = pathOhlcv tA then .ok frameA else if p = pathX then .corrupt else .missing⟩

/-- Path of the stored factor ohlcv.close for ticker AA under V0. -/
def pathClose : Str := getPath (S "base") (S "stocks") tA (S "1d") (S "ohlcv") (S "close")

def frameVal : Frame := [(1, [(S "value", 7)])]

/-- OHLCV for AA with dates {1,2}; the ohlcv.close factor resource present. -/
def env3 : Env :=
  ⟨fun p => if p = pathOhlcv tA then .ok frameA else if p = pathClose then .ok frameVal else .missing⟩

/-- A computed factor whose transform returns a series at date 3. -/
def gFac : Factor := .computed (S "g") (S "technical") (fun _ => [(SKey.date 3, 5)]) [S "ohlcv.close"]

/-- OHLCV present only for AA; BB has no resource at all. -/
def env4 : Env := ⟨fun p => if p = pathOhlcv tA then .ok frameA else .missing⟩

/-- OHLCV missing for AA while the technical.x factor resource exists. -/
def env5 : Env := ⟨fun p => if p = pathX then .ok frameVal else .missing⟩

/-- The dependency table get_factors builds for gFac under env3: base dates
{1,2}, one column (ohlcv.close, AA), all cells NaN because the stored series
is positionally indexed. -/
def w3dep : WideTable := ⟨[1, 2], [(S "ohlcv.close", tA)], [[none, none]]⟩

/-- The table get_ohlcv returns under env1 for tickers [AA, BB] and columns
[open, close]: index {1,2,3}, labels in cols-major order, data columns still
in the ticker-major assignment order. -/
def w1 : WideTable :=
  ⟨[1, 2, 3],
   [(S "open", tA), (S "open", tB), (S "close", tA), (S "close", tB)],
   [[some 1, some 2, none], [some 10, some 20, none],
    [none, some 3, some 4], [none, some 30, some 40]]⟩

/-- The per-date merge function of upsertRecords. -/
def upKey (old newData : Records) (d : Nat) : Option (Nat × Int) :=
  match lookupA newData d with
  | some v => some (d, v)
  | none => (lookupA old d).map (fun v => (d, v))

instance {ε α : Type} [DecidableEq ε] [DecidableEq α] : DecidableEq (Except ε α)
  | .error x, .error y =>
    if h : x = y then isTrue (by rw [h]) else isFalse (by intro hx; cases hx; exact h rfl)
  | .error x, .ok y => isFalse (by intro hx; cases hx)
  | .ok x, .error y => isFalse (by intro hx; cases hx)
  | .ok x, .ok y =>
    if h : x = y then isTrue (by rw [h]) else isFalse (by intro hx; cases hx; exact h rfl)

theorem splitDot1_append (a b : Str) (ha : '.' ∉ a) :
    splitDot1 (a ++ '.' :: b) = some (a, b) := by
  induction a with
  | nil => simp [splitDot1]
  | cons c cs ih =>
    have hc : c ≠ '.' := fun h => ha (h ▸ List.mem_cons_self c cs)
    have hcs : '.' ∉ cs := fun h => ha (List.mem_cons_of_mem c h)
    simp [splitDot1, hc, ih hcs]

theorem splitDot1_eq_none (s : Str) (h : '.' ∉ s) : splitDot1 s = none := by
  induction s with
  | nil => rfl
  | cons c cs ih =>
    have hc : c ≠ '.' := fun hx => h (hx ▸ List.mem_cons_self c cs)
    have hcs : '.' ∉ cs := fun hx => h (List.mem_cons_of_mem c hx)
    simp [splitDot1, hc, ih hcs]

theorem splitDot1_isSome (s : Str) (h : '.' ∈ s) : ∃ p, splitDot1 s = some p := by
  induction s with
  | nil => cases h
  | cons c cs ih =>
    by_cases hc : c = '.'
    · exact ⟨([], cs), by simp [splitDot1, hc]⟩
    · have : '.' ∈ cs := by
        rcases List.mem_cons.mp h with h1 | h1
        · exact absurd h1.symm hc
        · exact h1
      obtain ⟨p, hp⟩ := ih this
      exact ⟨(c :: p.1, p.2), by simp [splitDot1, hc, hp]⟩

/-- C6: a factor string with a dot resolves by splitting on the first dot
into (category, name), a bare string resolves to category technical with the
string as name, and the full_name of the resolved factor round-trips to the
original dotted string. -/
theorem factor_string_resolution (s a b : Str) :
    ('.' ∉ s → resolveSpec (.str s) = Factor.stored s (S "technical")) ∧
    (s = a ++ '.' :: b → '.' ∉ a →
      resolveSpec (.str s) = Factor.stored b a ∧
      (resolveSpec (.str s)).full_name = s) := by
  constructor
  · intro h
    simp [resolveSpec, resolveStr, splitDot1_eq_none s h]
  · intro hs ha
    subst hs
    constructor
    · simp [resolveSpec, resolveStr, splitDot1_append a b ha]
    · simp [resolveSpec, resolveStr, splitDot1_append a b ha, Factor.full_name,
        Factor.category, Factor.name]

/-- Witness for factor_string_resolution at the inputs named by the spec. -/
theorem factor_string_resolution_witness :
    resolveSpec (.str (S "rsi_14")) = Factor.stored (S "rsi_14") (S "technical") ∧
    resolveSpec (.str (S "technical.rsi_14")) = Factor.stored (S "rsi_14") (S "technical") ∧
    (resolveSpec (.str (S "technical.rsi_14"))).full_name = S "technical.rsi_14" := by
  refine ⟨(factor_string_resolution (S "rsi_14") [] []).1 (by decide), ?_, ?_⟩
  · exact ((factor_string_resolution (S "technical.rsi_14") (S "technical")
      (S "rsi_14")).2 (by decide) (by decide)).1
  · exact ((factor_string_resolution (S "technical.rsi_14") (S "technical")
      (S "rsi_14")).2 (by decide) (by decide)).2

theorem signalResolve_error_of_bare (fs : List FactorSpec) (s : Str)
    (hmem : FactorSpec.str s ∈ fs) (hnd : '.' ∉ s) :
    signalResolve fs = .error .indexError := by
  induction fs with
  | nil => cases hmem
  | cons hd rest ih =>
    rcases List.mem_cons.mp hmem with h1 | h1
    · subst h1
      simp [signalResolve, splitDot1_eq_none s hnd]
    · cases hd with
      | str s0 =>
        cases h0 : splitDot1 s0 with
        | none => simp [signalResolve, h0]
        | some cn => simp [signalResolve, h0, ih h1]
      | factor f => simp [signalResolve, ih h1]

theorem signalResolve_ok_of_dotted (fs : List FactorSpec)
    (h : ∀ u, FactorSpec.str u ∈ fs → '.' ∈ u) :
    ∃ l, signalResolve fs = .ok l := by
  induction fs with
  | nil => exact ⟨[], rfl⟩
  | cons hd rest ih =>
    have hrest : ∀ u, FactorSpec.str u ∈ rest → '.' ∈ u :=
      fun u hu => h u (List.mem_cons_of_mem hd hu)
    obtain ⟨l, hl⟩ := ih hrest
    cases hd with
    | str s0 =>
      obtain ⟨p, hp⟩ := splitDot1_isSome s0 (h s0 (List.mem_cons_self _ _))
      exact ⟨.stored p.2 p.1 :: l, by simp [signalResolve, hp, hl]⟩
    | factor f => exact ⟨f :: l, by simp [signalResolve, hl]⟩

/-- C10: constructing a Signal with a factor string that has no dot raises
IndexError (the split yields one part and index 1 is accessed) instead of
defaulting the category; specifications that are dotted strings or Factor
instances are accepted. -/
theorem signal_bare_string_raises (name : Str) (cond : WideTable → PySeries)
    (fs : List FactorSpec) (s : Str) :
    (FactorSpec.str s ∈ fs → '.' ∉ s → mkSignal name fs cond = .error .indexError) ∧
    ((∀ u, FactorSpec.str u ∈ fs → '.' ∈ u) → ∃ sig, mkSignal name fs cond = .ok sig) := by
  constructor
  · intro hmem hnd
    simp [mkSignal, signalResolve_error_of_bare fs s hmem hnd]
  · intro h
    obtain ⟨l, hl⟩ := signalResolve_ok_of_dotted fs h
    exact ⟨⟨name, l, cond⟩, by simp [mkSignal, hl]⟩

/-- Witness for signal_bare_string_raises: a bare string raises, a dotted
string is accepted. -/
theorem signal_bare_string_raises_witness :
    mkSignal (S "sig") [FactorSpec.str (S "rsi_14")] (fun _ => []) = .error .indexError ∧
    ∃ sig, mkSignal (S "sig") [FactorSpec.str (S "technical.rsi_14")] (fun _ => []) = .ok sig := by
  constructor
  · exact (signal_bare_string_raises (S "sig") (fun _ => []) [FactorSpec.str (S "rsi_14")]
      (S "rsi_14")).1 (by simp) (by decide)
  · exact (signal_bare_string_raises (S "sig") (fun _ => [])
      [FactorSpec.str (S "technical.rsi_14")] (S "x")).2
      (by intro u hu; simp at hu; subst hu; decide)

theorem lookupA_eq_none_of_not_mem {α β : Type} [DecidableEq α] (l : List (α × β)) (k : α)
    (h : k ∉ l.map Prod.fst) : lookupA l k = none := by
  induction l with
  | nil => rfl
  | cons p ps ih =>
    have h1 : p.1 ≠ k := fun hx => h (by simp [hx])
    have h2 : k ∉ ps.map Prod.fst := fun hx => h (by simp [hx])
    simp only [lookupA, if_neg h1]
    exact ih h2

theorem lookupA_isSome_of_mem {α β : Type} [DecidableEq α] (l : List (α × β)) (k : α)
    (h : k ∈ l.map Prod.fst) : (lookupA l k).isSome := by
  induction l with
  | nil => simp at h
  | cons p ps ih =>
    by_cases h1 : p.1 = k
    · simp [lookupA, h1]
    · simp only [lookupA, if_neg h1]
      rcases List.mem_map.mp h with ⟨q, hq, hqk⟩
      rcases List.mem_cons.mp hq with h2 | h2
      · exact absurd (h2 ▸ hqk) h1
      · exact ih (List.mem_map.mpr ⟨q, h2, hqk⟩)

theorem mem_sortedUnion (d : Nat) (l : List Nat) : d ∈ sortedUnion l ↔ d ∈ l := by
  unfold sortedUnion
  rw [List.mem_insertionSort, List.mem_dedup]

theorem sorted_sortedUnion (l : List Nat) : (sortedUnion l).Sorted (· ≤ ·) :=
  List.sorted_insertionSort (· ≤ ·) l.dedup

theorem nodup_sortedUnion (l : List Nat) : (sortedUnion l).Nodup :=
  ((List.perm_insertionSort (· ≤ ·) l.dedup).nodup_iff).mpr (List.nodup_dedup l)

theorem sortedUnion_congr (l1 l2 : List Nat) (h : ∀ x, x ∈ l1 ↔ x ∈ l2) :
    sortedUnion l1 = sortedUnion l2 := by
  have hmem : ∀ x, x ∈ sortedUnion l1 ↔ x ∈ sortedUnion l2 := by
    intro x; rw [mem_sortedUnion, mem_sortedUnion]; exact h x
  have hperm : List.Perm (sortedUnion l1) (sortedUnion l2) :=
    (List.perm_ext_iff_of_nodup (nodup_sortedUnion l1) (nodup_sortedUnion l2)).mpr hmem
  exact List.eq_of_perm_of_sorted hperm (sorted_sortedUnion l1) (sorted_sortedUnion l2)

theorem map_fst_filterMap_keyed (U : List Nat) (g : Nat → Option (Nat × Int))
    (hkey : ∀ d p, g d = some p → p.1 = d) (hsome : ∀ d ∈ U, (g d).isSome) :
    (U.filterMap g).map Prod.fst = U := by
  induction U with
  | nil => rfl
  | cons u us ih =>
    obtain ⟨p, hp⟩ := Option.isSome_iff_exists.mp (hsome u (List.mem_cons_self _ _))
    rw [List.filterMap_cons, hp]
    simp only [List.map_cons, hkey u p hp]
    rw [ih (fun d hd => hsome d (List.mem_cons_of_mem u hd))]

theorem lookupA_filterMap_not_mem (U : List Nat) (g : Nat → Option (Nat × Int))
    (hkey : ∀ d p, g d = some p → p.1 = d) (d : Nat) (hd : d ∉ U) :
    lookupA (U.filterMap g) d = none := by
  induction U with
  | nil => rfl
  | cons u us ih =>
    have hdu : d ≠ u := fun hx => hd (hx ▸ List.mem_cons_self u us)
    have hdus : d ∉ us := fun hx => hd (List.mem_cons_of_mem u hx)
    rw [List.filterMap_cons]
    cases hp : g u with
    | none => exact ih hdus
    | some p =>
      have : p.1 = u := hkey u p hp
      simp only [lookupA, this, if_neg (Ne.symm hdu)]
      exact ih hdus

theorem lookupA_filterMap_keyed (U : List Nat) (g : Nat → Option (Nat × Int))
    (hkey : ∀ d p, g d = some p → p.1 = d) (hnd : U.Nodup) (d : Nat) (hd : d ∈ U) :
    lookupA (U.filterMap g) d = (g d).map Prod.snd := by
  induction U with
  | nil => cases hd
  | cons u us ih =>
    have hnd2 : us.Nodup := hnd.of_cons
    rw [List.filterMap_cons]
    rcases List.mem_cons.mp hd with h1 | h1
    · subst h1
      have hdus : d ∉ us := (List.nodup_cons.mp hnd).1
      cases hp : g d with
      | none => rw [lookupA_filterMap_not_mem us g hkey d hdus]; rfl
      | some p =>
        have hp1 : p.1 = d := hkey d p hp
        simp [lookupA, hp1]
    · have hud : u ≠ d := fun hx => (List.nodup_cons.mp hnd).1 (hx ▸ h1)
      cases hp : g u with
      | none => exact ih hnd2 h1
      | some p =>
        have hp1 : p.1 = u := hkey u p hp
        simp only [lookupA, hp1, if_neg hud]
        exact ih hnd2 h1

theorem upKey_key (old newData : Records) : ∀ d p, upKey old newData d = some p → p.1 = d := by
  intro d p hp
  unfold upKey at hp
  cases hv : lookupA newData d with
  | some v => rw [hv] at hp; cases hp; rfl
  | none =>
    rw [hv] at hp
    cases hw : lookupA old d with
    | none => rw [hw] at hp; cases hp
    | some w => rw [hw] at hp; cases hp; rfl

theorem upsertRecords_eq_filterMap (old newData : Records) :
    upsertRecords old newData
      = (sortedUnion (old.map Prod.fst ++ newData.map Prod.fst)).filterMap (upKey old newData) := rfl

theorem upKey_isSome (old newData : Records) (d : Nat)
    (hd : d ∈ sortedUnion (old.map Prod.fst ++ newData.map Prod.fst)) :
    (upKey old newData d).isSome := by
  rcases List.mem_append.mp ((mem_sortedUnion d _).mp hd) with h1 | h1
  · unfold upKey
    cases hv : lookupA newData d with
    | some v => simp
    | none =>
      have := lookupA_isSome_of_mem old d h1
      cases hw : lookupA old d with
      | none => rw [hw] at this; cases this
      | some w => simp [hw]
  · unfold upKey
    have := lookupA_isSome_of_mem newData d h1
    cases hv : lookupA newData d with
    | none => rw [hv] at this; cases this
    | some v => simp [hv]

theorem upsert_keys (old newData : Records) :
    (upsertRecords old newData).map Prod.fst
      = sortedUnion (old.map Prod.fst ++ newData.map Prod.fst) := by
  rw [upsertRecords_eq_filterMap]
  exact map_fst_filterMap_keyed _ _ (upKey_key old newData) (fun d hd => upKey_isSome old newData d hd)

theorem upsert_lookup (old newData : Records) (d : Nat) :
    lookupA (upsertRecords old newData) d = (lookupA newData d).or (lookupA old d) := by
  rw [upsertRecords_eq_filterMap]
  by_cases hd : d ∈ sortedUnion (old.map Prod.fst ++ newData.map Prod.fst)
  · rw [lookupA_filterMap_keyed _ _ (upKey_key old newData) (nodup_sortedUnion _) d hd]
    unfold upKey
    cases hv : lookupA newData d with
    | some v => rfl
    | none =>
      cases hw : lookupA old d with
      | none => rfl
      | some w => rfl
  · have hmem := (mem_sortedUnion d (old.map Prod.fst ++ newData.map Prod.fst)).not.mp hd
    have hold : d ∉ old.map Prod.fst := fun hx => hmem (List.mem_append.mpr (Or.inl hx))
    have hnew : d ∉ newData.map Prod.fst := fun hx => hmem (List.mem_append.mpr (Or.inr hx))
    rw [lookupA_filterMap_not_mem _ _ (upKey_key old newData) d hd,
      lookupA_eq_none_of_not_mem old d hold, lookupA_eq_none_of_not_mem newData d hnew]
    rfl

theorem upsert_idem (old newData : Records) :
    upsertRecords (upsertRecords old newData) newData = upsertRecords old newData := by
  have hU : sortedUnion ((upsertRecords old newData).map Prod.fst ++ newData.map Prod.fst)
      = sortedUnion (old.map Prod.fst ++ newData.map Prod.fst) := by
    rw [upsert_keys]
    apply sortedUnion_congr
    intro x
    constructor
    · intro hx
      rcases List.mem_append.mp hx with h1 | h1
      · exact (mem_sortedUnion x _).mp h1
      · exact List.mem_append.mpr (Or.inr h1)
    · intro hx
      exact List.mem_append.mpr (Or.inl ((mem_sortedUnion x _).mpr hx))
  rw [upsertRecords_eq_filterMap (upsertRecords old newData) newData, hU,
    upsertRecords_eq_filterMap old newData]
  apply List.filterMap_congr
  intro d hd
  have hl := upsert_lookup old newData d
  unfold upKey
  cases hv : lookupA newData d with
  | some v => rfl
  | none =>
    rw [hv] at hl
    show Option.map (fun v => (d, v)) (lookupA (upsertRecords old newData) d)
      = Option.map (fun v => (d, v)) (lookupA old d)
    rw [hl]
    rfl

/-- C4: saving the same newData twice onto an existing record set produces
the same final content as saving it once; the saved content is sorted
ascending by date with no duplicate dates, overlapping dates take the value
from newData, dates only in the existing content are kept, and dates only in
newData are added. -/
theorem save_factor_idempotent (old newData : Records) :
    save_factor (some (save_factor (some old) newData)) newData
      = save_factor (some old) newData ∧
    ((save_factor (some old) newData).map Prod.fst).Sorted (· ≤ ·) ∧
    ((save_factor (some old) newData).map Prod.fst).Nodup ∧
    (∀ d : Nat, lookupA (save_factor (some old) newData) d
      = (lookupA newData d).or (lookupA old d)) := by
  refine ⟨upsert_idem old newData, ?_, ?_, fun d => upsert_lookup old newData d⟩
  · rw [show save_factor (some old) newData = upsertRecords old newData from rfl, upsert_keys]
    exact sorted_sortedUnion _
  · rw [show save_factor (some old) newData = upsertRecords old newData from rfl, upsert_keys]
    exact nodup_sortedUnion _

theorem loadOhlcvSel_error_shape (env : Env) (v : Vquant) (t : Str) (cols : List Str)
    (e : VError) (he : loadOhlcvSel env v t cols = .error e) :
    ∃ inner, e = .dataLoadError (ohlcvFailMsg t inner) := by
  unfold loadOhlcvSel at he
  split at he
  · exact ⟨_, ((Except.error.injEq _ _).mp he).symm⟩
  · exact ⟨_, ((Except.error.injEq _ _).mp he).symm⟩
  · split at he
    · cases he
    · exact ⟨_, ((Except.error.injEq _ _).mp he).symm⟩

theorem loadAllOhlcv_error (env : Env) (v : Vquant) (cols : List Str) (tickers : List Str)
    (t : Str) (e : VError) (ht : t ∈ tickers) (he : loadOhlcvSel env v t cols = .error e) :
    ∃ t2 e2, t2 ∈ tickers ∧ loadOhlcvSel env v t2 cols = .error e2 ∧
      loadAllOhlcv env v cols tickers = .error e2 := by
  induction tickers with
  | nil => cases ht
  | cons u ts ih =>
    cases hu : loadOhlcvSel env v u cols with
    | error e0 =>
      exact ⟨u, e0, List.mem_cons_self _ _, hu, by simp [loadAllOhlcv, hu]⟩
    | ok f =>
      have htts : t ∈ ts := by
        rcases List.mem_cons.mp ht with h1 | h1
        · subst h1; rw [hu] at he; cases he
        · exact h1
      obtain ⟨t2, e2, hmem, hload, hall⟩ := ih htts
      exact ⟨t2, e2, List.mem_cons_of_mem u hmem, hload, by simp [loadAllOhlcv, hu, hall]⟩

/-- C5: if any requested ticker fails to load in get_ohlcv, the whole call
errors with a DataLoadError whose message embeds a failing ticker, and no
table is returned for any ticker. -/
theorem get_ohlcv_fail_fast (env : Env) (v : Vquant) (tickers cols : List Str)
    (t : Str) (e : VError) (ht : t ∈ tickers)
    (he : loadOhlcvSel env v t cols = .error e) :
    ∃ t2 m, t2 ∈ tickers ∧ (∃ e2, loadOhlcvSel env v t2 cols = .error e2) ∧
      get_ohlcv env v tickers cols = .error (.dataLoadError m) ∧
      ∃ pre post, m = pre ++ t2 ++ post := by
  obtain ⟨t2, e2, hmem, hload, hall⟩ := loadAllOhlcv_error env v cols tickers t e ht he
  obtain ⟨inner, hinner⟩ := loadOhlcvSel_error_shape env v t2 cols e2 hload
  refine ⟨t2, ohlcvFailMsg t2 inner, hmem, ⟨e2, hload⟩, ?_, ?_⟩
  · rw [show get_ohlcv env v tickers cols
        = (match loadAllOhlcv env v cols tickers with
           | .error e => .error e
           | .ok frames =>
             if frames = [] then .error (.valueError (S "No objects to concatenate"))
             else
               let all_dates := sortedUnion (frames.flatMap (fun p => p.2.map Prod.fst))
               let multi_columns := cols.flatMap (fun c => tickers.map (fun t => (c, t)))
               let assigned := assignLoop frames all_dates cols tickers []
               if assigned.length = multi_columns.length then
                 .ok { index := all_dates, columns := multi_columns,
                       data := assigned.map (fun p => p.2) }
               else .error (.valueError (S "Length mismatch"))) from rfl, hall]
    rw [hinner]
  · exact ⟨S "Failed to load OHLCV for ", S ": " ++ inner, by
      unfold ohlcvFailMsg; rw [List.append_assoc]⟩

/-- Witness for get_ohlcv_fail_fast: ticker BB has no OHLCV resource under
env4, so the two-ticker call fails even though AA loads fine. -/
theorem get_ohlcv_fail_fast_witness :
    ∃ t2 m, t2 ∈ [tA, tB] ∧ (∃ e2, loadOhlcvSel env4 V0 t2 [S "open"] = .error e2) ∧
      get_ohlcv env4 V0 [tA, tB] [S "open"] = .error (.dataLoadError m) ∧
      ∃ pre post, m = pre ++ t2 ++ post :=
  get_ohlcv_fail_fast env4 V0 [tA, tB] [S "open"] tB
    (.dataLoadError (ohlcvFailMsg tB (fnfMsg (pathOhlcv tB)))) (by decide) (by decide)

theorem loadBase1_error_shape (env : Env) (v : Vquant) (t : Str) (e : VError)
    (he : loadBase1 env v t = .error e) :
    ∃ inner, e = .dataLoadError (ohlcvFailMsg t inner) := by
  unfold loadBase1 at he
  split at he
  · exact ⟨_, ((Except.error.injEq _ _).mp he).symm⟩
  · exact ⟨_, ((Except.error.injEq _ _).mp he).symm⟩
  · cases he

theorem loadBase_error (env : Env) (v : Vquant) (tickers : List Str) (t : Str) (e : VError)
    (ht : t ∈ tickers) (he : loadBase1 env v t = .error e) :
    ∃ e2 t2, t2 ∈ tickers ∧ loadBase1 env v t2 = .error e2 ∧
      loadBase env v tickers = .error e2 := by
  induction tickers with
  | nil => cases ht
  | cons u ts ih =>
    cases hu : loadBase1 env v u with
    | error e0 =>
      exact ⟨e0, u, List.mem_cons_self _ _, hu, by simp [loadBase, hu]⟩
    | ok f =>
      have htts : t ∈ ts := by
        rcases List.mem_cons.mp ht with h1 | h1
        · subst h1; rw [hu] at he; cases he
        · exact h1
      obtain ⟨e2, t2, hmem, hload, hall⟩ := ih htts
      exact ⟨e2, t2, List.mem_cons_of_mem u hmem, hload, by simp [loadBase, hu, hall]⟩

theorem get_factors_loadBase_error (env : Env) (v : Vquant) (tickers : List Str)
    (specs : List FactorSpec) (e : VError) (h : loadBase env v tickers = .error e) :
    get_factors env v tickers specs = .error e := by
  unfold get_factors
  rw [h]

/-- C9: get_factors loads the base OHLCV record set of every requested ticker
before any factor is fetched, so a ticker whose OHLCV resource is missing or
unreadable makes the whole call raise DataLoadError no matter which factors
were requested — even ones whose own resources exist. -/
theorem get_factors_requires_ohlcv (env : Env) (v : Vquant) (tickers : List Str)
    (specs : List FactorSpec) (t : Str) (ht : t ∈ tickers)
    (hb : env.fs (getPath v.base_url v.market t v.timeframe (S "ohlcv") (S "ohlcv")) = .missing ∨
          env.fs (getPath v.base_url v.market t v.timeframe (S "ohlcv") (S "ohlcv")) = .corrupt) :
    ∃ m, get_factors env v tickers specs = .error (.dataLoadError m) := by
  have he : ∃ e, loadBase1 env v t = .error e := by
    rcases hb with hb | hb
    · exact ⟨_, by unfold loadBase1; rw [hb]⟩
    · exact ⟨_, by unfold loadBase1; rw [hb]⟩
  obtain ⟨e, he⟩ := he
  obtain ⟨e2, t2, hmem, hload, hall⟩ := loadBase_error env v tickers t e ht he
  obtain ⟨inner, hinner⟩ := loadBase1_error_shape env v t2 e2 hload
  exact ⟨ohlcvFailMsg t2 inner,
    by rw [get_factors_loadBase_error env v tickers specs e2 hall, hinner]⟩

/-- Witness for get_factors_requires_ohlcv: under env5 the technical.x
factor resource exists but the OHLCV of AA does not, and get_factors fails
with a DataLoadError. -/
theorem get_factors_requires_ohlcv_witness :
    ∃ m, get_factors env5 V0 [tA] [.str (S "technical.x")] = .error (.dataLoadError m) :=
  get_factors_requires_ohlcv env5 V0 [tA] [.str (S "technical.x")] tA
    (by decide) (Or.inl (by decide))

theorem fetchLoopF_error_shape (env : Env) (v : Vquant) (cols : List (Str × Str))
    (dates : List Nat) (t : Str) (fs : List Factor) (data : List (List (Option Int)))
    (e : VError) (he : fetchLoopF env v cols dates t fs data = .error e) :
    ∃ m, e = .factorNotFoundError m := by
  induction fs generalizing data with
  | nil => cases he
  | cons f rest ih =>
    unfold fetchLoopF at he
    split at he
    · exact ⟨_, ((Except.error.injEq _ _).mp he).symm⟩
    · exact ih _ he

theorem tickerLoopF_error_shape (env : Env) (v : Vquant) (cols : List (Str × Str))
    (dates : List Nat) (resolved : List Factor) (tickers : List Str)
    (data : List (List (Option Int))) (e : VError)
    (he : tickerLoopF env v cols dates resolved tickers data = .error e) :
    ∃ m, e = .factorNotFoundError m := by
  induction tickers generalizing data with
  | nil => cases he
  | cons t ts ih =>
    unfold tickerLoopF at he
    split at he
    · rename_i e0 heq
      cases he
      exact fetchLoopF_error_shape env v cols dates t resolved data _ heq
    · rename_i d2 heq
      exact ih d2 he

/-- C2 amended: at the StoredFactor.fetch boundary a missing resource raises
FactorNotFound and an unreadable one raises DataLoadError, but get_factors
re-wraps every factor fetch failure as FactorNotFound: once the base OHLCV
loads succeed, every error get_factors raises is a FactorNotFoundError, so
at the get_factors interface a load error is re-typed as not-found. -/
theorem error_kinds (env : Env) (v : Vquant) (name category ticker : Str)
    (tickers : List Str) (specs : List FactorSpec) :
    (env.fs (getPath v.base_url v.market ticker v.timeframe category name) = .missing →
      fetchStored env v name category ticker = .error (.factorNotFoundError
        (notFoundMsg (category ++ '.' :: name) ticker
          (getPath v.base_url v.market ticker v.timeframe category name)))) ∧
    (env.fs (getPath v.base_url v.market ticker v.timeframe category name) = .corrupt →
      fetchStored env v name category ticker
        = .error (.dataLoadError (loadFailMsg (category ++ '.' :: name) ticker parseErrMsg))) ∧
    (∀ base e, loadBase env v tickers = .ok base → base ≠ [] →
      get_factors env v tickers specs = .error e → ∃ m, e = .factorNotFoundError m) := by
  refine ⟨?_, ?_, ?_⟩
  · intro h
    unfold fetchStored
    rw [h]
  · intro h
    unfold fetchStored
    rw [h]
  · intro base e hbase hne hg
    simp only [get_factors, hbase] at hg
    rw [if_neg hne] at hg
    split at hg
    · rename_i e0 heq
      cases hg
      exact tickerLoopF_error_shape env v _ _ _ tickers _ _ heq
    · cases hg

/-- Counterexample to C2 as stated: under env2 the technical.x resource
exists but cannot be deserialized; StoredFactor.fetch raises DataLoadError,
yet the caller of get_factors receives a FactorNotFoundError, not a
DataLoadError. -/
theorem error_kinds_counterexample :
    env2.fs pathX = .corrupt ∧
    fetchStored env2 V0 (S "x") (S "technical") tA
      = .error (.dataLoadError (loadFailMsg (S "technical.x") tA parseErrMsg)) ∧
    errIs VError.isFactorNotFound (get_factors env2 V0 [tA] [.str (S "technical.x")]) = true ∧
    errIs VError.isDataLoad (get_factors env2 V0 [tA] [.str (S "technical.x")]) = false := by
  refine ⟨by decide, by decide, by decide, by decide⟩

/-- Witness for error_kinds: missing resource (env4), unreadable resource
(env2), and the get_factors re-wrap at a concrete failing call. -/
theorem error_kinds_witness :
    fetchStored env4 V0 (S "x") (S "technical") tA = .error (.factorNotFoundError
      (notFoundMsg (S "technical" ++ '.' :: S "x") tA
        (getPath V0.base_url V0.market tA V0.timeframe (S "technical") (S "x")))) ∧
    fetchStored env2 V0 (S "x") (S "technical") tA
      = .error (.dataLoadError (loadFailMsg (S "technical" ++ '.' :: S "x") tA parseErrMsg)) ∧
    (∃ m, VError.factorNotFoundError (computeFailMsg (S "technical.x") tA
        (loadFailMsg (S "technical.x") tA parseErrMsg)) = .factorNotFoundError m) := by
  refine ⟨?_, ?_, ?_⟩
  · exact (error_kinds env4 V0 (S "x") (S "technical") tA [tA] []).1 (by decide)
  · exact (error_kinds env2 V0 (S "x") (S "technical") tA [tA] []).2.1 (by decide)
  · exact (error_kinds env2 V0 (S "x") (S "technical") tA [tA] [.str (S "technical.x")]).2.2
      [(tA, frameA)]
      (.factorNotFoundError (computeFailMsg (S "technical.x") tA
        (loadFailMsg (S "technical.x") tA parseErrMsg)))
      (by decide) (by decide) (by decide)

theorem get_factors_ok_shape (env : Env) (v : Vquant) (tickers : List Str)
    (specs : List FactorSpec) (w : WideTable) (h : get_factors env v tickers specs = .ok w) :
    ∃ base, loadBase env v tickers = .ok base ∧
      w.index = sortedUnion (base.flatMap (fun p => p.2.map Prod.fst)) ∧
      w.columns = ((specs.map resolveSpec).map Factor.full_name).flatMap
        (fun f => tickers.map (fun t => (f, t))) := by
  cases hb : loadBase env v tickers with
  | error e =>
    simp only [get_factors, hb] at h
    cases h
  | ok base =>
    simp only [get_factors, hb] at h
    by_cases hne : base = []
    · rw [if_pos hne] at h; cases h
    · rw [if_neg hne] at h
      split at h
      · cases h
      · rename_i data heq
        injection h with hw
        subst hw
        exact ⟨base, rfl, rfl, rfl⟩

/-- C3 amended: whenever get_factors returns a table, its row index is the
sorted-ascending deduplicated union of the date indices of the per-ticker
base OHLCV record sets — not of the fetched factor series; a date appearing
only in a factor series is dropped. -/
theorem get_factors_union_index (env : Env) (v : Vquant) (tickers : List Str)
    (specs : List FactorSpec) (w : WideTable)
    (h : get_factors env v tickers specs = .ok w) :
    (∃ base, loadBase env v tickers = .ok base ∧
      w.index = sortedUnion (base.flatMap (fun p => p.2.map Prod.fst)) ∧
      (∀ d, d ∈ w.index ↔ ∃ p ∈ base, d ∈ p.2.map Prod.fst)) ∧
    w.index.Sorted (· ≤ ·) ∧ w.index.Nodup := by
  obtain ⟨base, hb, hidx, hcols⟩ := get_factors_ok_shape env v tickers specs w h
  refine ⟨⟨base, hb, hidx, ?_⟩, ?_, ?_⟩
  · intro d
    rw [hidx, mem_sortedUnion, List.mem_flatMap]
  · rw [hidx]; exact sorted_sortedUnion _
  · rw [hidx]; exact nodup_sortedUnion _

/-- Counterexample to C3 as stated: under env3 the computed factor gFac is
fetched as a series whose date index holds 3, yet the returned row index is
[1, 2] — the union of the base OHLCV dates only — so date 3 is dropped from
the result. -/
theorem get_factors_union_index_counterexample :
    Factor.fetch env3 V0 gFac tA = .ok [(SKey.date 3, 5)] ∧
    (get_factors env3 V0 [tA] [.factor gFac]).toOption.map WideTable.index = some [1, 2] ∧
    (get_factors env3 V0 [tA] [.factor gFac]).toOption.map
      (fun w => decide (3 ∈ w.index)) = some false := by
  refine ⟨by decide, by decide, by decide⟩

/-- Witness for get_factors_union_index at a concrete successful call. -/
theorem get_factors_union_index_witness :
    (∃ base, loadBase env3 V0 [tA] = .ok base ∧
      w3dep.index = sortedUnion (base.flatMap (fun p => p.2.map Prod.fst)) ∧
      (∀ d, d ∈ w3dep.index ↔ ∃ p ∈ base, d ∈ p.2.map Prod.fst)) ∧
    w3dep.index.Sorted (· ≤ ·) ∧ w3dep.index.Nodup :=
  get_factors_union_index env3 V0 [tA] [.str (S "ohlcv.close")] w3dep (by decide)

theorem get_ohlcv_ok_shape (env : Env) (v : Vquant) (tickers cols : List Str)
    (w : WideTable) (h : get_ohlcv env v tickers cols = .ok w) :
    ∃ frames, loadAllOhlcv env v cols tickers = .ok frames ∧
      w.index = sortedUnion (frames.flatMap (fun p => p.2.map Prod.fst)) ∧
      w.columns = cols.flatMap (fun c => tickers.map (fun t => (c, t))) := by
  cases hl : loadAllOhlcv env v cols tickers with
  | error e =>
    simp only [get_ohlcv, hl] at h
    cases h
  | ok frames =>
    simp only [get_ohlcv, hl] at h
    by_cases hne : frames = []
    · rw [if_pos hne] at h; cases h
    · rw [if_neg hne] at h
      split at h
      · injection h with hw
        subst hw
        exact ⟨frames, rfl, rfl, rfl⟩
      · cases h

/-- C7: a successful get_ohlcv call labels its columns with the Cartesian
product of the requested columns and tickers (columns outer, tickers inner,
both in caller order), and a successful get_factors call labels its columns
with the product of the resolved factor full-names and the tickers in the
same arrangement. -/
theorem wide_table_columns (env : Env) (v : Vquant) (tickers cols : List Str)
    (specs : List FactorSpec) (w u : WideTable) :
    (get_ohlcv env v tickers cols = .ok w →
      w.columns = cols.flatMap (fun c => tickers.map (fun t => (c, t)))) ∧
    (get_factors env v tickers specs = .ok u →
      u.columns = ((specs.map resolveSpec).map Factor.full_name).flatMap
        (fun f => tickers.map (fun t => (f, t)))) := by
  constructor
  · intro h
    obtain ⟨frames, _, _, hcols⟩ := get_ohlcv_ok_shape env v tickers cols w h
    exact hcols
  · intro h
    obtain ⟨base, _, _, hcols⟩ := get_factors_ok_shape env v tickers specs u h
    exact hcols

/-- Witness for wide_table_columns at concrete successful calls. -/
theorem wide_table_columns_witness :
    w1.columns = [S "open", S "close"].flatMap (fun c => [tA, tB].map (fun t => (c, t))) ∧
    w3dep.columns = (([FactorSpec.str (S "ohlcv.close")].map resolveSpec).map
      Factor.full_name).flatMap (fun f => [tA].map (fun t => (f, t))) := by
  constructor
  · exact (wide_table_columns env1 V0 [tA, tB] [S "open", S "close"] [] w1 w1).1 (by decide)
  · exact (wide_table_columns env3 V0 [tA] [] [FactorSpec.str (S "ohlcv.close")] w3dep w3dep).2
      (by decide)

theorem fetchLoop_stored_eq (env : Env) (v : Vquant) (cols : List (Str × Str))
    (dates : List Nat) (t : Str) (ss : List Str) (data : List (List (Option Int))) :
    fetchLoopF env v cols dates t (ss.map (fun s => resolveSpec (.str s))) data
      = fetchLoopS env v cols dates t (ss.map resolveStr) data := by
  induction ss generalizing data with
  | nil => rfl
  | cons s rest ih =>
    simp only [List.map_cons]
    unfold fetchLoopF fetchLoopS
    rw [show Factor.fetch env v (resolveSpec (.str s)) t
        = fetchStored env v (resolveStr s).2 (resolveStr s).1 t from rfl,
      show (resolveSpec (.str s)).full_name = (resolveStr s).1 ++ '.' :: (resolveStr s).2 from rfl]
    cases fetchStored env v (resolveStr s).2 (resolveStr s).1 t with
    | error e => rfl
    | ok sr => exact ih _

theorem tickerLoop_stored_eq (env : Env) (v : Vquant) (cols : List (Str × Str))
    (dates : List Nat) (ss : List Str) (tickers : List Str)
    (data : List (List (Option Int))) :
    tickerLoopF env v cols dates (ss.map (fun s => resolveSpec (.str s))) tickers data
      = tickerLoopS env v cols dates (ss.map resolveStr) tickers data := by
  induction tickers generalizing data with
  | nil => rfl
  | cons t ts ih =>
    unfold tickerLoopF tickerLoopS
    rw [fetchLoop_stored_eq]
    cases fetchLoopS env v cols dates t (ss.map resolveStr) data with
    | error e => rfl
    | ok d2 => exact ih _

/-- The all-string specialization coincides with get_factors on the
corresponding FactorSpec.str list. -/
theorem getFactorsFromStored_eq (env : Env) (v : Vquant) (tickers ss : List Str) :
    getFactorsFromStored env v tickers ss = get_factors env v tickers (ss.map FactorSpec.str) := by
  have e1 : (ss.map FactorSpec.str).map resolveSpec = ss.map (fun s => resolveSpec (.str s)) := by
    rw [List.map_map]
    rfl
  have e2 : (ss.map (fun s => resolveSpec (.str s))).map Factor.full_name
      = (ss.map resolveStr).map (fun cn => cn.1 ++ '.' :: cn.2) := by
    rw [List.map_map, List.map_map]
    rfl
  simp only [getFactorsFromStored, get_factors, e1, e2]
  cases loadBase env v tickers with
  | error e => rfl
  | ok base =>
    by_cases hne : base = []
    · simp only [if_pos hne]
    · simp only [if_neg hne]
      rw [tickerLoop_stored_eq]

/-- C8: a ComputedFactor defaults its dependency list to ["ohlcv.close"]
when none is given; its fetch for a ticker equals get_factors over that one
single ticker and all of its dependency strings with the transform applied
to the resulting table; on a dependency failure the fetch fails with the
same error for every transform (the transform never runs), and on success
the table handed to the transform carries columns of that single ticker
only — data of different tickers is never mixed. -/
theorem computed_factor_fetch (name category : Str) (fn : WideTable → PySeries)
    (deps : List Str) (env : Env) (v : Vquant) (ticker : Str) :
    (mkComputedFactor name category fn none).dependencies = [S "ohlcv.close"] ∧
    Factor.fetch env v (.computed name category fn deps) ticker
      = (get_factors env v [ticker] (deps.map FactorSpec.str)).map fn ∧
    (∀ e, get_factors env v [ticker] (deps.map FactorSpec.str) = .error e →
      ∀ fn2 : WideTable → PySeries,
        Factor.fetch env v (.computed name category fn2 deps) ticker = .error e) ∧
    (∀ w, get_factors env v [ticker] (deps.map FactorSpec.str) = .ok w →
      Factor.fetch env v (.computed name category fn deps) ticker = .ok (fn w) ∧
      ∀ k, k ∈ w.columns → k.2 = ticker) := by
  have hfe : ∀ g : WideTable → PySeries,
      Factor.fetch env v (.computed name category g deps) ticker
        = (get_factors env v [ticker] (deps.map FactorSpec.str)).map g := by
    intro g
    show (match getFactorsFromStored env v [ticker] deps with
          | .error e => Except.error e
          | .ok w => Except.ok (g w)) = _
    rw [getFactorsFromStored_eq]
    cases get_factors env v [ticker] (deps.map FactorSpec.str) with
    | error e => rfl
    | ok w => rfl
  refine ⟨rfl, hfe fn, ?_, ?_⟩
  · intro e he fn2
    rw [hfe fn2, he]
    rfl
  · intro w hw
    constructor
    · rw [hfe fn, hw]
      rfl
    · intro k hk
      obtain ⟨base, hb, hidx, hcols⟩ :=
        get_factors_ok_shape env v [ticker] (deps.map FactorSpec.str) w hw
      rw [hcols, List.mem_flatMap] at hk
      obtain ⟨f, hf, hkmem⟩ := hk
      simp only [List.map_cons, List.map_nil, List.mem_singleton] at hkmem
      rw [hkmem]

/-- Witness for computed_factor_fetch under env3: the default dependency
list, a successful fetch equal to the transform of the single-ticker
dependency table, and that table carrying only AA columns. -/
theorem computed_factor_fetch_witness :
    (mkComputedFactor (S "g") (S "technical")
      (fun _ => [(SKey.date 3, 5)]) none).dependencies = [S "ohlcv.close"] ∧
    Factor.fetch env3 V0 (.computed (S "g") (S "technical")
      (fun _ => [(SKey.date 3, 5)]) [S "ohlcv.close"]) tA
      = .ok ((fun _ : WideTable => [(SKey.date 3, 5)]) w3dep) ∧
    (∀ k, k ∈ w3dep.columns → k.2 = tA) := by
  have h := computed_factor_fetch (S "g") (S "technical")
    (fun _ => [(SKey.date 3, 5)]) [S "ohlcv.close"] env3 V0 tA
  have h4 := h.2.2.2 w3dep (by decide)
  exact ⟨h.1, h4.1, h4.2⟩

/-- C1: evaluation of get_ohlcv at the failing input. With two tickers and
two columns the positional relabelling attaches the label (open, BB) to the
data column that the assignment loop created for (close, AA): at date 1 —
a date absent from the BB frame, where the claim requires a missing
marker — the cell addressed by (open, BB) carries the AA close value 10.
The row index is still the full sorted union {1,2,3}, so rows are not
dropped, but the per-ticker cells are misattributed whenever at least two
tickers and two columns are requested. -/
theorem ohlcv_outer_align_eval :
    (get_ohlcv env1 V0 [tA, tB] [S "open", S "close"]).toOption.map
      (fun w => (w.index, w.cellAt (S "open", tB) 1)) = some ([1, 2, 3], some 10) ∧
    lookupA frameB 1 = none ∧
    frameCell frameA 1 (S "close") = some 10 ∧
    get_ohlcv env1 V0 [tA, tB] [S "open", S "close"] = .ok w1 := by
  refine ⟨by decide, by decide, by decide, by decide⟩
